import Mathlib

/-!
# VanityGPG — sequoia backend, shallow embedding

Shallow embedding of `src/pgp_backends/sequoia_backend.rs` (the sequoia
OpenPGP backend of VanityGPG) and proofs of the specified properties.

Bytes are modelled as `Nat` (values `< 256` where produced by the code),
buffers as `List Nat`, machine integers as `Nat` with explicit `% 2 ^ w`
at the points where the Rust code casts or can wrap.
-/

namespace VanityGPG

/-! ## Byte-order helpers (the `byteorder` crate operations used by the code) -/

/-- Big-endian encoding of a `u16` value into two bytes
(`byteorder::BigEndian::write_u16`). -/
def be16 (n : Nat) : List Nat := [n / 2 ^ 8 % 2 ^ 8, n % 2 ^ 8]

/-- Big-endian encoding of a `u32` value into four bytes
(`byteorder::BigEndian::write_u32`). -/
def be32 (n : Nat) : List Nat :=
  [n / 2 ^ 24 % 2 ^ 8, n / 2 ^ 16 % 2 ^ 8, n / 2 ^ 8 % 2 ^ 8, n % 2 ^ 8]

/-- Big-endian encoding of a `u64` value into eight bytes (used by SHA-1
length padding). -/
def be64 (n : Nat) : List Nat :=
  [n / 2 ^ 56 % 2 ^ 8, n / 2 ^ 48 % 2 ^ 8, n / 2 ^ 40 % 2 ^ 8, n / 2 ^ 32 % 2 ^ 8,
   n / 2 ^ 24 % 2 ^ 8, n / 2 ^ 16 % 2 ^ 8, n / 2 ^ 8 % 2 ^ 8, n % 2 ^ 8]

/-- In-place overwrite of the bytes of `buf` starting at offset `off` with
`bytes` — the effect of writing into a Rust slice `&mut buf[off..off+k]`. -/
def writeBytes (buf : List Nat) (off : Nat) (bytes : List Nat) : List Nat :=
  buf.take off ++ bytes ++ buf.drop (off + bytes.length)

@[simp] theorem be16_length (n : Nat) : (be16 n).length = 2 := rfl

@[simp] theorem be32_length (n : Nat) : (be32 n).length = 4 := rfl

/-! ## SHA-1 (`HashAlgorithm::SHA1.context()` of sequoia, backed by nettle).

The fingerprint of the cached public-key packet is its SHA-1 digest; the
hash itself lives in the external crypto library, so it is embedded here
as the standard FIPS 180-1 algorithm over byte lists. -/

/-- Rotate a 32-bit word left by `s` bits. -/
def rotl (s x : Nat) : Nat := ((x <<< s) % 2 ^ 32) ||| (x >>> (32 - s))

/-- SHA-1 message padding: `0x80`, zeros to 56 mod 64, then the bit length
as a big-endian 64-bit value. -/
def sha1pad (msg : List Nat) : List Nat :=
  msg ++ 0x80 :: List.replicate ((119 - msg.length % 64) % 64) 0 ++ be64 (msg.length * 8)

/-- Assemble big-endian 32-bit words from bytes. -/
def toWords : List Nat → List Nat
  | b0 :: b1 :: b2 :: b3 :: rest =>
      (b0 % 256 * 2 ^ 24 + b1 % 256 * 2 ^ 16 + b2 % 256 * 2 ^ 8 + b3 % 256) :: toWords rest
  | _ => []

/-- One step of the SHA-1 message-schedule extension:
`w[i] = rotl1 (w[i-3] xor w[i-8] xor w[i-14] xor w[i-16])`. -/
def scheduleStep (arr : Array Nat) (_i : Nat) : Array Nat :=
  let j := arr.size
  arr.push (rotl 1 (arr.getD (j - 3) 0 ^^^ arr.getD (j - 8) 0 ^^^
                    arr.getD (j - 14) 0 ^^^ arr.getD (j - 16) 0))

/-- The 80-entry SHA-1 message schedule of one 16-word block. -/
def schedule (w16 : List Nat) : Array Nat :=
  (List.range 64).foldl scheduleStep w16.toArray

/-- The SHA-1 round function `f` for round `i`. -/
def sha1f (i b c d : Nat) : Nat :=
  if i < 20 then (b &&& c) ||| ((b ^^^ 0xFFFFFFFF) &&& d)
  else if i < 40 then b ^^^ c ^^^ d
  else if i < 60 then (b &&& c) ||| (b &&& d) ||| (c &&& d)
  else b ^^^ c ^^^ d

/-- The SHA-1 round constant for round `i`. -/
def sha1k (i : Nat) : Nat :=
  if i < 20 then 0x5A827999
  else if i < 40 then 0x6ED9EBA1
  else if i < 60 then 0x8F1BBCDC
  else 0xCA62C1D6

/-- SHA-1 working state: the five 32-bit registers. -/
abbrev Sha1State := Nat × Nat × Nat × Nat × Nat

/-- One SHA-1 compression round. -/
def sha1round (w : Array Nat) (st : Sha1State) (i : Nat) : Sha1State :=
  let (a, b, c, d, e) := st
  (((rotl 5 a) + sha1f i b c d + e + sha1k i + w.getD i 0) % 2 ^ 32,
   a, rotl 30 b, c, d)

/-- Process one 64-byte block. -/
def sha1block (h : Sha1State) (block : List Nat) : Sha1State :=
  let w := schedule (toWords block)
  let (a, b, c, d, e) := (List.range 80).foldl (sha1round w) h
  ((h.1 + a) % 2 ^ 32, (h.2.1 + b) % 2 ^ 32, (h.2.2.1 + c) % 2 ^ 32,
   (h.2.2.2.1 + d) % 2 ^ 32, (h.2.2.2.2 + e) % 2 ^ 32)

/-- Split a byte list into 64-byte chunks; `fuel` is any upper bound on
the number of chunks (each step consumes a nonempty prefix), making the
recursion structural. -/
def chunksAux : Nat → List Nat → List (List Nat)
  | 0, _ => []
  | _, [] => []
  | fuel + 1, b :: rest => (b :: rest).take 64 :: chunksAux fuel ((b :: rest).drop 64)

/-- Split a byte list into 64-byte chunks. -/
def chunks64 (l : List Nat) : List (List Nat) :=
  chunksAux l.length l

/-- Serialize the final state as the 20-byte digest. -/
def sha1digest (h : Sha1State) : List Nat :=
  be32 h.1 ++ be32 h.2.1 ++ be32 h.2.2.1 ++ be32 h.2.2.2.1 ++ be32 h.2.2.2.2

/-- SHA-1 of a byte list: a 20-byte digest. -/
def sha1 (msg : List Nat) : List Nat :=
  sha1digest ((chunks64 (sha1pad msg)).foldl sha1block
    (0x67452301, 0xEFCDAB89, 0x98BADCFE, 0x10325476, 0xC3D2E1F0))

/-! ## Hexadecimal rendering (`sequoia_openpgp::Fingerprint::to_hex`).

Sequoia documents `Fingerprint::to_hex` as `format!("{:X}", self)`: the
canonical representation, always uppercase and without spaces. -/

/-- One hexadecimal digit, uppercase (the `{:X}` formatter's digit set). -/
def hexDigit (n : Nat) : Char :=
  if n < 10 then Char.ofNat (48 + n) else Char.ofNat (55 + n)

/-- A byte rendered as two uppercase hexadecimal digits. -/
def byteHex (b : Nat) : List Char := [hexDigit (b / 16), hexDigit (b % 16)]

/-- `Fingerprint::from_bytes(..).to_hex()`: the digest bytes rendered as an
uppercase hexadecimal string. -/
def Fingerprint.to_hex (digest : List Nat) : String :=
  String.mk ((digest.map byteHex).flatten)

/-- Is `c` an uppercase hexadecimal digit (`0`–`9`, `A`–`F`)? -/
def isUpperHexDigit (c : Char) : Bool :=
  (48 ≤ c.toNat && c.toNat ≤ 57) || (65 ≤ c.toNat && c.toNat ≤ 70)

/-- Is `c` a lowercase hexadecimal digit (`0`–`9`, `a`–`f`)? -/
def isLowerHexDigit (c : Char) : Bool :=
  (48 ≤ c.toNat && c.toNat ≤ 57) || (97 ≤ c.toNat && c.toNat ≤ 102)

/-! ## UTF-8 (`String::from_utf8` and `String::from_utf8_lossy`).

The strict decoder returns `none` on any ill-formed sequence; the lossy
decoder replaces each maximal ill-formed subpart with U+FFFD, never
failing — exactly the two Rust conversions the finalization code uses. -/

/-- Is `b` a UTF-8 continuation byte (`0x80`–`0xBF`)? -/
def isCont (b : Nat) : Bool := 0x80 ≤ b && b < 0xC0

/-- The allowed range of the first continuation byte after leading byte `b`
(the W3C/Unicode table; rules out overlong forms, surrogates and values
above U+10FFFF). -/
def cont1Ok (b b2 : Nat) : Bool :=
  if b = 0xE0 then 0xA0 ≤ b2 && b2 < 0xC0
  else if b = 0xED then 0x80 ≤ b2 && b2 < 0xA0
  else if b = 0xF0 then 0x90 ≤ b2 && b2 < 0xC0
  else if b = 0xF4 then 0x80 ≤ b2 && b2 < 0x90
  else isCont b2

/-- Strict UTF-8 decoding of a byte list (`String::from_utf8`):
`none` exactly when the bytes are ill-formed. -/
def utf8Decode : List Nat → Option (List Char)
  | [] => some []
  | b :: rest =>
    if b < 0x80 then (utf8Decode rest).map (Char.ofNat b :: ·)
    else if b < 0xC2 then none
    else if b < 0xE0 then
      match rest with
      | b2 :: rest2 =>
        if isCont b2 then
          (utf8Decode rest2).map (Char.ofNat ((b - 0xC0) * 64 + (b2 - 0x80)) :: ·)
        else none
      | _ => none
    else if b < 0xF0 then
      match rest with
      | b2 :: b3 :: rest3 =>
        if cont1Ok b b2 && isCont b3 then
          (utf8Decode rest3).map
            (Char.ofNat ((b - 0xE0) * 4096 + (b2 - 0x80) * 64 + (b3 - 0x80)) :: ·)
        else none
      | _ => none
    else if b < 0xF5 then
      match rest with
      | b2 :: b3 :: b4 :: rest4 =>
        if cont1Ok b b2 && isCont b3 && isCont b4 then
          (utf8Decode rest4).map
            (Char.ofNat ((b - 0xF0) * 262144 + (b2 - 0x80) * 4096 +
                         (b3 - 0x80) * 64 + (b4 - 0x80)) :: ·)
        else none
      | _ => none
    else none

/-- The U+FFFD replacement character. -/
def replacementChar : Char := Char.ofNat 0xFFFD

/-- Lossy UTF-8 decoding, structurally recursive on a fuel bound: each
step consumes at least one byte, so any `fuel` at least the list's length
gives `String::from_utf8_lossy`'s result (each maximal ill-formed subpart
becomes one U+FFFD; never fails). -/
def utf8LossyAux : Nat → List Nat → List Char
  | 0, _ => []
  | _, [] => []
  | fuel + 1, b :: rest =>
    if b < 0x80 then Char.ofNat b :: utf8LossyAux fuel rest
    else if b < 0xC2 then replacementChar :: utf8LossyAux fuel rest
    else if b < 0xE0 then
      match rest with
      | b2 :: rest2 =>
        if isCont b2 then
          Char.ofNat ((b - 0xC0) * 64 + (b2 - 0x80)) :: utf8LossyAux fuel rest2
        else replacementChar :: utf8LossyAux fuel (b2 :: rest2)
      | [] => [replacementChar]
    else if b < 0xF0 then
      match rest with
      | b2 :: rest2 =>
        if cont1Ok b b2 then
          match rest2 with
          | b3 :: rest3 =>
            if isCont b3 then
              Char.ofNat ((b - 0xE0) * 4096 + (b2 - 0x80) * 64 + (b3 - 0x80)) ::
                utf8LossyAux fuel rest3
            else replacementChar :: utf8LossyAux fuel (b3 :: rest3)
          | [] => [replacementChar]
        else replacementChar :: utf8LossyAux fuel (b2 :: rest2)
      | [] => [replacementChar]
    else if b < 0xF5 then
      match rest with
      | b2 :: rest2 =>
        if cont1Ok b b2 then
          match rest2 with
          | b3 :: rest3 =>
            if isCont b3 then
              match rest3 with
              | b4 :: rest4 =>
                if isCont b4 then
                  Char.ofNat ((b - 0xF0) * 262144 + (b2 - 0x80) * 4096 +
                              (b3 - 0x80) * 64 + (b4 - 0x80)) :: utf8LossyAux fuel rest4
                else replacementChar :: utf8LossyAux fuel (b4 :: rest4)
              | [] => [replacementChar]
            else replacementChar :: utf8LossyAux fuel (b3 :: rest3)
          | [] => [replacementChar]
        else replacementChar :: utf8LossyAux fuel (b2 :: rest2)
      | [] => [replacementChar]
    else replacementChar :: utf8LossyAux fuel rest

/-- Lossy UTF-8 decoding of a byte list (`String::from_utf8_lossy`). -/
def utf8Lossy (l : List Nat) : List Char :=
  utf8LossyAux l.length l

/-! ## Types from `pgp_backends/mod.rs` (not among the provided sources)

`Algorithms`, `CipherSuite`, `UserID`, `ArmoredKey` and the error types are
declared in the `super` module, which is not part of the provided sources;
they are modelled from the spec (§3 data model, §7 error taxonomy). -/

/-- Modelled from the spec: the RSA key-size variants of §3 "Algorithm"
(`RSA` of `pgp_backends/mod.rs` is missing from the sources). -/
inductive RSAVariant
  | rsa2048
  | rsa3072
  | rsa4096
deriving DecidableEq

/-- Modelled from the spec: the elliptic-curve variants of §3 "Algorithm"
(`Curve` of `pgp_backends/mod.rs` is missing from the sources). -/
inductive CurveVariant
  | ed25519
  | cv25519
  | nistP256
  | nistP384
  | nistP521
deriving DecidableEq

/-- Modelled from the spec: §3 "Algorithm: tagged variant — RSA{...} or
elliptic-curve{...}" (`Algorithms` of `pgp_backends/mod.rs` is missing from
the sources). -/
inductive Algorithms
  | RSA (r : RSAVariant)
  | ECC (c : CurveVariant)
deriving DecidableEq

/-- Modelled from the spec: §3 "CipherSuite: configuration pairing a
signing-key algorithm and an encryption-key algorithm", opaque beyond its
two accessors (`CipherSuite` of `pgp_backends/mod.rs` is missing from the
sources). -/
structure CipherSuite where
  signing_algorithm : Algorithms
  encryption_algorithm : Algorithms
deriving DecidableEq

/-- Accessor for the signing-key algorithm of the suite. -/
def CipherSuite.get_signing_key_algorithm (c : CipherSuite) : Algorithms :=
  c.signing_algorithm

/-- Accessor for the encryption-key algorithm of the suite. -/
def CipherSuite.get_encryption_key_algorithm (c : CipherSuite) : Algorithms :=
  c.encryption_algorithm

/-- Modelled from the spec: §3 "UserID: optional human-readable identity
string; absence is a valid, supported state" (`UserID` of
`pgp_backends/mod.rs` is missing from the sources). -/
structure UserID where
  id : Option String
deriving DecidableEq

/-- The optional identity string held by a `UserID`. -/
def UserID.get_id (u : UserID) : Option String := u.id

/-- Modelled from the spec: §3 "ArmoredKey: a pair of ASCII-armored text
blocks — one encoding the public certificate, one encoding the full
secret-key transferable form" (`ArmoredKey` of `pgp_backends/mod.rs` is
missing from the sources). -/
structure ArmoredKey where
  armored_public : String
  armored_private : String
deriving DecidableEq

/-- `ArmoredKey::new(public, private)`. -/
def ArmoredKey.new (pub sec : String) : ArmoredKey := ⟨pub, sec⟩

/-- Modelled from the spec: §7 error taxonomy (`PGPError` of
`pgp_backends/mod.rs` is missing from the sources). -/
inductive PGPError
  | KeyGenerationFailed
  | InvalidKeyGenerated
deriving DecidableEq

/-- Modelled from the spec: the catch-all error type of finalization
(§7: signing, serialization and encoding failures are propagated as-is
alongside `PGPError`). -/
inductive UniversalError
  | pgp (e : PGPError)
  | signing
  | serialize
  | armor
  | utf8
deriving DecidableEq

/-! ## Sequoia data carriers used by the backend

These model the parts of `sequoia_openpgp` the backend observably uses.
A `Key4` is reduced to the three attributes the backend reads: its creation
time, its public-key-algorithm identifier and the serialized form of its
public MPIs. -/

/-- A sequoia `Key4` as the backend observes it: `creation_time()` as whole
seconds since the epoch, `pk_algo().into()` as the algorithm-identifier
byte, and `MarshalInto::to_vec(key.mpis())` (whose length is
`mpis().serialized_len()`) as the serialized public-key material. -/
structure Key4 where
  creation_time : Nat
  pk_algo : Nat
  mpis_bytes : List Nat
deriving DecidableEq

/-- `Key4::set_creation_time` (always succeeds for the epoch-based times
this program passes). -/
def Key4.set_creation_time (k : Key4) (t : Nat) : Key4 :=
  { k with creation_time := t }

/-- `sequoia_openpgp::types::SignatureType`, restricted to the three
variants this program constructs. -/
inductive SignatureType
  | DirectKey
  | PositiveCertification
  | SubkeyBinding
deriving DecidableEq

/-- `sequoia_openpgp::types::HashAlgorithm`, restricted to the variants
this program names. -/
inductive HashAlgorithm
  | SHA1
  | SHA256
  | SHA512
deriving DecidableEq

/-- `sequoia_openpgp::types::SymmetricAlgorithm`, restricted to the
variants this program names. -/
inductive SymmetricAlgorithm
  | AES128
  | AES256
deriving DecidableEq

/-- `sequoia_openpgp::types::KeyFlags`, restricted to the three flags this
program sets. -/
structure KeyFlags where
  certification : Bool
  signing : Bool
  storage_encryption : Bool
deriving DecidableEq

/-- `KeyFlags::empty()`. -/
def KeyFlags.empty : KeyFlags := ⟨false, false, false⟩

/-- `KeyFlags::set_certification`. -/
def KeyFlags.set_certification (f : KeyFlags) : KeyFlags :=
  { f with certification := true }

/-- `KeyFlags.set_signing`. -/
def KeyFlags.set_signing (f : KeyFlags) : KeyFlags :=
  { f with signing := true }

/-- `KeyFlags::set_storage_encryption`. -/
def KeyFlags.set_storage_encryption (f : KeyFlags) : KeyFlags :=
  { f with storage_encryption := true }

/-- An OpenPGP signature as this program determines it: the subpacket
values installed through `SignatureBuilder` (the cryptographic MPIs, which
the program never inspects, are not modelled). `SignatureBuilder::from` on
a finished signature reuses these fields, so builder and signature share
this representation. -/
structure Signature where
  typ : SignatureType
  hash_algo : Option HashAlgorithm
  features_declared : Bool
  key_flags : Option KeyFlags
  signature_creation_time : Option Nat
  key_validity_period : Option Nat
  preferred_hash_algorithms : Option (List HashAlgorithm)
  preferred_symmetric_algorithms : Option (List SymmetricAlgorithm)
  revocation_keys : List Unit
deriving DecidableEq

/-- `SignatureBuilder::new(typ)`: a fresh builder with no subpackets
installed. -/
def SignatureBuilder.new (t : SignatureType) : Signature :=
  { typ := t
    hash_algo := none
    features_declared := false
    key_flags := none
    signature_creation_time := none
    key_validity_period := none
    preferred_hash_algorithms := none
    preferred_symmetric_algorithms := none
    revocation_keys := [] }

/-- `SignatureBuilder::from(signature)`: derive a builder inheriting every
field of a finished signature. -/
def SignatureBuilder.from_signature (s : Signature) : Signature := s

/-- `SignatureBuilder::set_hash_algo`. -/
def Signature.set_hash_algo (s : Signature) (h : HashAlgorithm) : Signature :=
  { s with hash_algo := some h }

/-- `SignatureBuilder::set_features(&Features::sequoia())` (succeeds on
this constant argument). -/
def Signature.set_features (s : Signature) : Signature :=
  { s with features_declared := true }

/-- `SignatureBuilder::set_key_flags` (succeeds on these constant
arguments). -/
def Signature.set_key_flags (s : Signature) (f : KeyFlags) : Signature :=
  { s with key_flags := some f }

/-- `SignatureBuilder::set_signature_creation_time` (succeeds on the
epoch-based times this program passes). -/
def Signature.set_signature_creation_time (s : Signature) (t : Nat) : Signature :=
  { s with signature_creation_time := some t }

/-- `SignatureBuilder::set_key_validity_period(None)` (succeeds on
`None`). -/
def Signature.set_key_validity_period (s : Signature) (p : Option Nat) : Signature :=
  { s with key_validity_period := p }

/-- `SignatureBuilder::set_preferred_hash_algorithms` (succeeds on these
constant lists). -/
def Signature.set_preferred_hash_algorithms (s : Signature)
    (l : List HashAlgorithm) : Signature :=
  { s with preferred_hash_algorithms := some l }

/-- `SignatureBuilder::set_preferred_symmetric_algorithms` (succeeds on
these constant lists). -/
def Signature.set_preferred_symmetric_algorithms (s : Signature)
    (l : List SymmetricAlgorithm) : Signature :=
  { s with preferred_symmetric_algorithms := some l }

/-- `SignatureBuilder::set_revocation_key` (replaces the revocation-key
subpackets; called with `vec![]` to strip them). -/
def Signature.set_revocation_key (s : Signature) (l : List Unit) : Signature :=
  { s with revocation_keys := l }

/-- `SignatureBuilder::set_type`. -/
def Signature.set_type (s : Signature) (t : SignatureType) : Signature :=
  { s with typ := t }

/-- `sequoia_openpgp::Packet`, restricted to the variants this program
produces, plus `Unknown` for packets the library failed to recognize. -/
inductive Packet
  | SecretKey (k : Key4)
  | Signature (s : Signature)
  | UserID (u : String)
  | SecretSubkey (k : Key4)
  | Unknown
deriving DecidableEq

/-- Is this packet an unrecognized/unparseable one? -/
def Packet.isUnknown : Packet → Bool
  | .Unknown => true
  | _ => false

/-- Is this packet an identity (`UserID`) packet? -/
def Packet.isUserID : Packet → Bool
  | .UserID _ => true
  | _ => false

/-- A sequoia `Cert`: its packet sequence. -/
structure Cert where
  packets : List Packet
deriving DecidableEq

/-- `Cert::from_packets`, on the packet sequences this program builds
(led by a primary secret key with its self-signature, in canonical order,
where sequoia succeeds and keeps the order). -/
def Cert.from_packets (ps : List Packet) : Cert := ⟨ps⟩

/-- `Cert::merge_packets`, on the merges this program performs (appending
a certified subject followed by its certifying signature, which sequoia
canonicalizes to exactly that trailing position). -/
def Cert.merge_packets (c : Cert) (ps : List Packet) : Cert :=
  ⟨c.packets ++ ps⟩

/-- `Cert::unknowns()`: the unrecognized packets of the certificate. -/
def Cert.unknowns (c : Cert) : List Packet :=
  c.packets.filter Packet.isUnknown

/-! ## The backend (`SequoiaBackend`) -/

/-- `SequoiaBackend`: the generated primary key, the cipher suite, the
authoritative timestamp (`u32`) and the cached public-key packet bytes. -/
structure SequoiaBackend where
  primary_key : Key4
  cipher_suite : CipherSuite
  timestamp : Nat
  packet_cache : List Nat
deriving DecidableEq

/-- `generate_key(algorithm, for_signing)`: the underlying library
generation is randomized and external, so its outcome is a parameter;
the function's own contribution is mapping a failed generation to
`PGPError::KeyGenerationFailed`. -/
def generate_key (_algorithm : Algorithms) (_for_signing : Bool)
    (outcome : Option Key4) : Except PGPError Key4 :=
  match outcome with
  | some key => .ok key
  | none => .error .KeyGenerationFailed

/-- `SequoiaBackend::new(cipher_suite)`, given the primary key the
(randomized, external) generator produced. Builds the packet cache:
`[0x99, 0, 0, 4, 0, 0, 0, 0]`, the packet length `6 +
mpis().serialized_len() as u16` written big-endian at `[1..3]`, the
creation time `as u32` written big-endian at `[4..8]`, then the
algorithm-identifier byte and the serialized public key appended. -/
def SequoiaBackend.new (cipher_suite : CipherSuite) (primary_key : Key4) :
    SequoiaBackend :=
  let packet_cache : List Nat := [0x99, 0, 0, 4, 0, 0, 0, 0]
  let packet_length := (6 + primary_key.mpis_bytes.length % 2 ^ 16) % 2 ^ 16
  let packet_cache := writeBytes packet_cache 1 (be16 packet_length)
  let timestamp := primary_key.creation_time % 2 ^ 32
  let packet_cache := writeBytes packet_cache 4 (be32 timestamp)
  let packet_cache := packet_cache ++ [primary_key.pk_algo]
  let packet_cache := packet_cache ++ primary_key.mpis_bytes
  { primary_key, cipher_suite, timestamp, packet_cache }

/-- `SequoiaBackend::fingerprint`: SHA-1 of the packet cache, rendered by
`Fingerprint::from_bytes(..).to_hex()`. Takes the backend immutably. -/
def SequoiaBackend.fingerprint (b : SequoiaBackend) : String :=
  Fingerprint.to_hex (sha1 b.packet_cache)

/-- `SequoiaBackend::shuffle`: `self.timestamp -= 1` (u32, wrapping) and
the new value rewritten big-endian into cache bytes `[4..8]`; always
returns `Ok(())`. The updated backend is returned alongside the result. -/
def SequoiaBackend.shuffle (b : SequoiaBackend) :
    SequoiaBackend × Except PGPError Unit :=
  ({ b with
      timestamp := (b.timestamp + (2 ^ 32 - 1)) % 2 ^ 32
      packet_cache := writeBytes b.packet_cache 4
        (be32 ((b.timestamp + (2 ^ 32 - 1)) % 2 ^ 32)) },
   .ok ())

/-- `n` successive `shuffle()` calls. -/
def SequoiaBackend.shuffleIter (b : SequoiaBackend) : Nat → SequoiaBackend
  | 0 => b
  | n + 1 => (SequoiaBackend.shuffleIter b n).shuffle.1

/-- The direct-key signature of `get_armored_results` (lines 78–89): the
builder chain with its literal attribute arguments, signed at
`creation_time`. -/
def direct_key_signature (creation_time : Nat) : Signature :=
  ((((((((SignatureBuilder.new .DirectKey).set_hash_algo
      .SHA512).set_features).set_key_flags
      ((KeyFlags.empty.set_certification).set_signing)).set_signature_creation_time
      creation_time).set_key_validity_period
      none).set_preferred_hash_algorithms
      [.SHA512, .SHA256]).set_preferred_symmetric_algorithms
      [.AES256, .AES128])

/-- The identity-certification signature of `get_armored_results`
(lines 98–104): derived from the direct-key signature, creation time
re-set, revocation keys stripped, retyped and rehashed. -/
def uid_signature (dsig : Signature) (creation_time : Nat) : Signature :=
  ((((SignatureBuilder.from_signature dsig).set_signature_creation_time
      creation_time).set_revocation_key []).set_type
      .PositiveCertification).set_hash_algo .SHA512

/-- The subkey-binding signature of `get_armored_results` (lines
114–119). -/
def subkey_binding_signature (creation_time : Nat) : Signature :=
  (((((SignatureBuilder.new .SubkeyBinding).set_signature_creation_time
      creation_time).set_hash_algo .SHA512).set_features).set_key_flags
      (KeyFlags.empty.set_storage_encryption)).set_key_validity_period none

/-- Outcomes of the external (randomized or I/O-backed) sequoia calls made
by `get_armored_results`, in program order: keypair conversion of the
primary key, the two or three signing operations, the subkey generation,
and the three serialization steps. -/
structure FinalizeEnv where
  keypair_ok : Bool
  sign_direct_ok : Bool
  uid_bind_ok : Bool
  subkey_outcome : Option Key4
  subkey_bind_ok : Bool
  public_serialized : Option (List Nat)
  private_serialized : Option (List Nat)
  writer_output : Option (List Nat)
deriving DecidableEq

/-- Lines 70–124 of `get_armored_results`: commit the timestamp into the
primary key, build the direct-key signature and the base certificate,
certify the identity when one is present, then generate, stamp and bind
the encryption subkey. Produces the assembled certificate. -/
def assemble (b : SequoiaBackend) (uid : UserID) (env : FinalizeEnv) :
    Except UniversalError Cert :=
  let creation_time := b.timestamp
  let primary_key := b.primary_key.set_creation_time creation_time
  if env.keypair_ok then
    let dsig := direct_key_signature creation_time
    if env.sign_direct_ok then
      let cert := Cert.from_packets
        [Packet.SecretKey primary_key, Packet.Signature dsig]
      let withUid : Except UniversalError Cert :=
        match uid.get_id with
        | some uid_string =>
          if env.uid_bind_ok then
            .ok (cert.merge_packets
              [Packet.UserID uid_string,
               Packet.Signature (uid_signature dsig creation_time)])
          else .error .signing
        | none => .ok cert
      match withUid with
      | .error e => .error e
      | .ok cert =>
        match generate_key (b.cipher_suite.get_encryption_key_algorithm) false
            env.subkey_outcome with
        | .error e => .error (.pgp e)
        | .ok subkey =>
          let subkey := subkey.set_creation_time creation_time
          if env.subkey_bind_ok then
            .ok (cert.merge_packets
              [Packet.SecretSubkey subkey,
               Packet.Signature (subkey_binding_signature creation_time)])
          else .error .signing
    else .error .signing
  else .error .signing

/-- Lines 126–138 of `get_armored_results`: if the certificate has no
unknown packets, serialize the armored public block (strict UTF-8), the
TSK bytes, and the armor-writer output (lossy UTF-8); otherwise fail with
`InvalidKeyGenerated`. -/
def validateAndArmor (env : FinalizeEnv) (cert : Cert) :
    Except UniversalError ArmoredKey :=
  if cert.unknowns = [] then
    match env.public_serialized with
    | none => .error .serialize
    | some public_bytes =>
      match utf8Decode public_bytes with
      | none => .error .utf8
      | some public_chars =>
        match env.private_serialized with
        | none => .error .serialize
        | some _private_hex =>
          match env.writer_output with
          | none => .error .armor
          | some out_bytes =>
            .ok (ArmoredKey.new (String.mk public_chars)
              (String.mk (utf8Lossy out_bytes)))
  else .error (.pgp .InvalidKeyGenerated)

/-- `SequoiaBackend::get_armored_results`: assemble the certificate, then
validate it and render the two armored blocks. -/
def SequoiaBackend.get_armored_results (b : SequoiaBackend) (uid : UserID)
    (env : FinalizeEnv) : Except UniversalError ArmoredKey :=
  match assemble b uid env with
  | .error e => .error e
  | .ok cert => validateAndArmor env cert

/-! ## Concrete instances (witness inputs) -/

/-- A concrete generated primary key. -/
def k0 : Key4 := ⟨1600000000, 22, [64, 1, 2, 3]⟩

/-- A concrete generated encryption subkey. -/
def k1 : Key4 := ⟨1600000123, 18, [64, 9, 9]⟩

/-- A concrete cipher suite. -/
def cs0 : CipherSuite :=
  ⟨Algorithms.ECC .ed25519, Algorithms.ECC .cv25519⟩

/-- A concrete freshly constructed backend. -/
def b0 : SequoiaBackend := SequoiaBackend.new cs0 k0

/-- The absent user id (`finalize(backend, None)`). -/
def uidNone : UserID := ⟨none⟩

/-- A concrete present user id. -/
def uidAlice : UserID := ⟨some "Alice"⟩

/-- An environment in which every external call succeeds and every
serialized block is ASCII. -/
def envOk : FinalizeEnv :=
  { keypair_ok := true
    sign_direct_ok := true
    uid_bind_ok := true
    subkey_outcome := some k1
    subkey_bind_ok := true
    public_serialized := some [0x41, 0x42]
    private_serialized := some [0x01]
    writer_output := some [0x43, 0x44] }

/-! ## Buffer-write lemmas -/

theorem writeBytes_take {buf bytes : List Nat} {off : Nat}
    (h : off ≤ buf.length) :
    (writeBytes buf off bytes).take off = buf.take off := by
  unfold writeBytes
  rw [List.append_assoc, List.take_left' (by simp [List.length_take]; omega)]

theorem writeBytes_mid {buf bytes : List Nat} {off : Nat}
    (h : off ≤ buf.length) :
    ((writeBytes buf off bytes).drop off).take bytes.length = bytes := by
  unfold writeBytes
  rw [List.append_assoc, List.drop_left' (by simp [List.length_take]; omega),
    List.take_left]

theorem writeBytes_drop {buf bytes : List Nat} {off : Nat}
    (h : off ≤ buf.length) :
    (writeBytes buf off bytes).drop (off + bytes.length)
      = buf.drop (off + bytes.length) := by
  unfold writeBytes
  rw [@List.drop_left' _ (buf.take off ++ bytes) _ _
    (by simp [List.length_take]; omega)]

theorem writeBytes_length {buf bytes : List Nat} {off : Nat}
    (h : off + bytes.length ≤ buf.length) :
    (writeBytes buf off bytes).length = buf.length := by
  unfold writeBytes
  simp only [List.length_append, List.length_take, List.length_drop]
  omega

/-! ## The cache/scalar mirror invariant -/

/-- The two-representation invariant of §3/§9: the authoritative timestamp
scalar is a `u32`, bytes `[4..8)` of the packet cache are its big-endian
encoding, and the cache is long enough for that field to exist. -/
def tsMirror (b : SequoiaBackend) : Prop :=
  b.timestamp < 2 ^ 32 ∧ 8 ≤ b.packet_cache.length ∧
    (b.packet_cache.drop 4).take 4 = be32 b.timestamp

/-- The cache a fresh backend carries, in normal form. -/
theorem new_packet_cache (cs : CipherSuite) (k : Key4) :
    (SequoiaBackend.new cs k).packet_cache
      = 0x99 :: (be16 ((6 + k.mpis_bytes.length % 2 ^ 16) % 2 ^ 16)
          ++ [4] ++ be32 (k.creation_time % 2 ^ 32)
          ++ [k.pk_algo] ++ k.mpis_bytes) := rfl

/-- The authoritative timestamp a fresh backend carries. -/
theorem new_timestamp (cs : CipherSuite) (k : Key4) :
    (SequoiaBackend.new cs k).timestamp = k.creation_time % 2 ^ 32 := rfl

theorem tsMirror_new (cs : CipherSuite) (k : Key4) :
    tsMirror (SequoiaBackend.new cs k) := by
  refine ⟨?_, ?_, ?_⟩
  · rw [new_timestamp]
    exact Nat.mod_lt _ (by omega)
  · rw [new_packet_cache]
    simp only [List.length_cons, List.length_append, be16_length, be32_length,
      List.length_singleton, List.length_nil]
    omega
  · rfl

theorem shuffle_result (b : SequoiaBackend) : b.shuffle.2 = Except.ok () := rfl

theorem shuffle_timestamp (b : SequoiaBackend) :
    b.shuffle.1.timestamp = (b.timestamp + (2 ^ 32 - 1)) % 2 ^ 32 := rfl

theorem shuffle_packet_cache (b : SequoiaBackend) :
    b.shuffle.1.packet_cache
      = writeBytes b.packet_cache 4 (be32 b.shuffle.1.timestamp) := rfl

theorem shuffle_primary_key (b : SequoiaBackend) :
    b.shuffle.1.primary_key = b.primary_key := by
  cases b
  rfl

theorem shuffle_cipher_suite (b : SequoiaBackend) :
    b.shuffle.1.cipher_suite = b.cipher_suite := by
  cases b
  rfl

theorem tsMirror_shuffle {b : SequoiaBackend} (h : tsMirror b) :
    tsMirror b.shuffle.1 := by
  obtain ⟨hlt, hlen, _⟩ := h
  refine ⟨Nat.mod_lt _ (by omega), ?_, ?_⟩
  · rw [shuffle_packet_cache, writeBytes_length (by simp [be32_length]; omega)]
    exact hlen
  · rw [shuffle_packet_cache]
    have := @writeBytes_mid b.packet_cache
      (be32 b.shuffle.1.timestamp) 4 (by omega)
    simpa [be32_length] using this

/-- Wrapping `u32` decrement is exact subtraction away from zero. -/
theorem u32_pred_exact {t : Nat} (h0 : 0 < t) (h1 : t < 2 ^ 32) :
    (t + (2 ^ 32 - 1)) % 2 ^ 32 = t - 1 := by omega

theorem shuffleIter_spec (b : SequoiaBackend) (N : Nat) (hm : tsMirror b)
    (hN : N ≤ b.timestamp) :
    (b.shuffleIter N).timestamp = b.timestamp - N ∧ tsMirror (b.shuffleIter N) := by
  induction N with
  | zero => exact ⟨by simp [SequoiaBackend.shuffleIter], hm⟩
  | succ n ih =>
    obtain ⟨hts, hmir⟩ := ih (by omega)
    have h0 : 0 < (b.shuffleIter n).timestamp := by omega
    have h1 : (b.shuffleIter n).timestamp < 2 ^ 32 := hmir.1
    refine ⟨?_, tsMirror_shuffle hmir⟩
    show ((b.shuffleIter n).shuffle.1).timestamp = _
    rw [shuffle_timestamp, u32_pred_exact h0 h1, hts]
    omega

/-- C1. **Timestamp monotonic decrement and cache mirror.** For every
backend, the cache/scalar mirror (bytes `[4..8)` of the packet cache are
the big-endian encoding of the authoritative `u32` timestamp) holds after
construction and is preserved by every `shuffle()` call, and for every
`N` not exceeding the original creation timestamp, after `N` calls to
`shuffle()` the authoritative timestamp equals the original timestamp
minus `N` and bytes `[4..8)` of the cache encode it big-endian. -/
theorem timestamp_decrement_and_mirror :
    (∀ (cs : CipherSuite) (k : Key4), tsMirror (SequoiaBackend.new cs k))
  ∧ (∀ b : SequoiaBackend, tsMirror b → tsMirror b.shuffle.1)
  ∧ (∀ (cs : CipherSuite) (k : Key4) (N : Nat),
       N ≤ (SequoiaBackend.new cs k).timestamp →
       ((SequoiaBackend.new cs k).shuffleIter N).timestamp
           = (SequoiaBackend.new cs k).timestamp - N
     ∧ (((SequoiaBackend.new cs k).shuffleIter N).packet_cache.drop 4).take 4
           = be32 (((SequoiaBackend.new cs k).shuffleIter N).timestamp)) := by
  refine ⟨tsMirror_new, fun _ h => tsMirror_shuffle h, fun cs k N hN => ?_⟩
  obtain ⟨hts, hmir⟩ := shuffleIter_spec _ N (tsMirror_new cs k) hN
  exact ⟨hts, hmir.2.2⟩

/-- Witness for C1 at a concrete backend and `N = 2`. -/
theorem timestamp_decrement_and_mirror_witness :
    (b0.shuffleIter 2).timestamp = b0.timestamp - 2
  ∧ ((b0.shuffleIter 2).packet_cache.drop 4).take 4
      = be32 ((b0.shuffleIter 2).timestamp) :=
  timestamp_decrement_and_mirror.2.2 cs0 k0 2 (by decide)

/-- C2. **Cache stability under shuffle.** Over any sequence of
`shuffle()` calls, every byte of the packet cache outside offsets
`[4..8)` is unchanged (the prefix `[0..4)` and the suffix from offset 8,
with the length preserved), and the primary key material and the cipher
suite are untouched. -/
theorem cache_stability_under_shuffle (b : SequoiaBackend) (n : Nat)
    (h : 8 ≤ b.packet_cache.length) :
    (b.shuffleIter n).packet_cache.take 4 = b.packet_cache.take 4
  ∧ (b.shuffleIter n).packet_cache.drop 8 = b.packet_cache.drop 8
  ∧ (b.shuffleIter n).packet_cache.length = b.packet_cache.length
  ∧ (b.shuffleIter n).primary_key = b.primary_key
  ∧ (b.shuffleIter n).cipher_suite = b.cipher_suite := by
  induction n with
  | zero => exact ⟨rfl, rfl, rfl, rfl, rfl⟩
  | succ m ih =>
    obtain ⟨ht, hd, hl, hk, hc⟩ := ih
    have hlen : 8 ≤ (b.shuffleIter m).packet_cache.length := by omega
    refine ⟨?_, ?_, ?_, ?_, ?_⟩
    · show ((b.shuffleIter m).shuffle.1).packet_cache.take 4 = _
      rw [shuffle_packet_cache,
        writeBytes_take (by omega)]
      exact ht
    · show ((b.shuffleIter m).shuffle.1).packet_cache.drop 8 = _
      rw [shuffle_packet_cache]
      have := @writeBytes_drop (b.shuffleIter m).packet_cache
        (be32 ((b.shuffleIter m).shuffle.1.timestamp)) 4
        (by omega)
      simp only [be32_length] at this
      rw [show (4 + 4 : Nat) = 8 from rfl] at this
      rw [this]
      exact hd
    · show ((b.shuffleIter m).shuffle.1).packet_cache.length = _
      rw [shuffle_packet_cache,
        writeBytes_length (by simp [be32_length]; omega)]
      exact hl
    · show ((b.shuffleIter m).shuffle.1).primary_key = _
      rw [shuffle_primary_key]; exact hk
    · show ((b.shuffleIter m).shuffle.1).cipher_suite = _
      rw [shuffle_cipher_suite]; exact hc

/-- Witness for C2 at a concrete backend and `n = 3`. -/
theorem cache_stability_under_shuffle_witness :
    (b0.shuffleIter 3).packet_cache.take 4 = b0.packet_cache.take 4
  ∧ (b0.shuffleIter 3).packet_cache.drop 8 = b0.packet_cache.drop 8
  ∧ (b0.shuffleIter 3).packet_cache.length = b0.packet_cache.length
  ∧ (b0.shuffleIter 3).primary_key = b0.primary_key
  ∧ (b0.shuffleIter 3).cipher_suite = b0.cipher_suite :=
  cache_stability_under_shuffle b0 3 (by decide)

/-- C5. **Shuffle is infallible and decrements by one.** Every `shuffle()`
call returns `Ok(())`; whenever the current timestamp is nonzero the
`u32` decrement does not underflow and the new timestamp is exactly one
less; nothing enforces a lower bound — at timestamp zero the operation
still succeeds and the `u32` wraps around. -/
theorem shuffle_ok_and_decrement (b : SequoiaBackend)
    (h : b.timestamp < 2 ^ 32) :
    b.shuffle.2 = Except.ok ()
  ∧ (0 < b.timestamp → b.shuffle.1.timestamp = b.timestamp - 1)
  ∧ (b.timestamp = 0 → b.shuffle.1.timestamp = 2 ^ 32 - 1) := by
  refine ⟨rfl, fun h0 => ?_, fun h0 => ?_⟩
  · rw [shuffle_timestamp, u32_pred_exact h0 h]
  · rw [shuffle_timestamp, h0]
    omega

/-- Witness for C5 at a concrete backend. -/
theorem shuffle_ok_and_decrement_witness :
    b0.shuffle.2 = Except.ok () ∧ b0.shuffle.1.timestamp = b0.timestamp - 1 :=
  ⟨(shuffle_ok_and_decrement b0 (by decide)).1,
   (shuffle_ok_and_decrement b0 (by decide)).2.1 (by decide)⟩

/-- C4. **Packet-cache layout at construction.** A successfully
constructed backend's cache is exactly: the tag byte `0x99`, a two-byte
big-endian length equal to 6 plus the serialized public-key length, one
version byte 4, the four-byte big-endian creation timestamp copied from
the generated primary key's creation time, one algorithm-identifier byte,
then the serialized public-key material — so its total length is 9 plus
the key-material length. -/
theorem new_cache_layout (cs : CipherSuite) (k : Key4)
    (h1 : 6 + k.mpis_bytes.length < 2 ^ 16) (h2 : k.creation_time < 2 ^ 32) :
    (SequoiaBackend.new cs k).packet_cache
      = 0x99 :: (be16 (6 + k.mpis_bytes.length) ++ [4]
          ++ be32 k.creation_time ++ [k.pk_algo] ++ k.mpis_bytes)
  ∧ (SequoiaBackend.new cs k).packet_cache.length = 9 + k.mpis_bytes.length
  ∧ (SequoiaBackend.new cs k).timestamp = k.creation_time := by
  have hm : k.mpis_bytes.length % 2 ^ 16 = k.mpis_bytes.length :=
    Nat.mod_eq_of_lt (by omega)
  have hl : (6 + k.mpis_bytes.length) % 2 ^ 16 = 6 + k.mpis_bytes.length :=
    Nat.mod_eq_of_lt (by omega)
  have ht : k.creation_time % 2 ^ 32 = k.creation_time := Nat.mod_eq_of_lt h2
  refine ⟨?_, ?_, ?_⟩
  · rw [new_packet_cache, hm, hl, ht]
  · rw [new_packet_cache]
    simp only [List.length_cons, List.length_append, be16_length, be32_length,
      List.length_singleton, List.length_nil]
    omega
  · rw [new_timestamp, ht]

/-- Witness for C4 at a concrete cipher suite and key. -/
theorem new_cache_layout_witness :
    b0.packet_cache
      = 0x99 :: (be16 (6 + k0.mpis_bytes.length) ++ [4]
          ++ be32 k0.creation_time ++ [k0.pk_algo] ++ k0.mpis_bytes)
  ∧ b0.packet_cache.length = 9 + k0.mpis_bytes.length
  ∧ b0.timestamp = k0.creation_time :=
  new_cache_layout cs0 k0 (by decide) (by decide)

/-! ## Fingerprint rendering -/

@[simp] theorem byteHex_length (b : Nat) : (byteHex b).length = 2 := rfl

theorem sha1digest_length (h : Sha1State) : (sha1digest h).length = 20 := by
  simp only [sha1digest, List.length_append, be32_length]

theorem sha1_length (m : List Nat) : (sha1 m).length = 20 :=
  sha1digest_length _

theorem be32_mem_lt (n : Nat) : ∀ x ∈ be32 n, x < 256 := by
  simp only [be32, List.mem_cons, List.not_mem_nil, or_false]
  omega

theorem sha1digest_mem_lt (h : Sha1State) : ∀ x ∈ sha1digest h, x < 256 := by
  intro x hx
  simp only [sha1digest, List.mem_append] at hx
  rcases hx with ((((hx | hx) | hx) | hx) | hx) <;> exact be32_mem_lt _ x hx

theorem sha1_mem_lt (m : List Nat) : ∀ x ∈ sha1 m, x < 256 :=
  sha1digest_mem_lt _

theorem hexDigit_upper {n : Nat} (h : n < 16) :
    isUpperHexDigit (hexDigit n) = true := by
  have hall : ∀ m < 16, isUpperHexDigit (hexDigit m) = true := by decide
  exact hall n h

theorem byteHex_upper {b : Nat} (h : b < 256) :
    ∀ c ∈ byteHex b, isUpperHexDigit c = true := by
  intro c hc
  simp only [byteHex, List.mem_cons, List.not_mem_nil, or_false] at hc
  rcases hc with rfl | rfl
  · exact hexDigit_upper (by omega)
  · exact hexDigit_upper (Nat.mod_lt _ (by omega))

theorem toHex_length (ds : List Nat) :
    ((ds.map byteHex).flatten).length = 2 * ds.length := by
  induction ds with
  | nil => rfl
  | cons d ds ih =>
    simp only [List.map_cons, List.flatten_cons, List.length_append,
      byteHex_length, ih, List.length_cons]
    omega

theorem toHex_all_upper {ds : List Nat} (h : ∀ x ∈ ds, x < 256) :
    ((ds.map byteHex).flatten).all isUpperHexDigit = true := by
  rw [List.all_eq_true]
  intro c hc
  rw [List.mem_flatten] at hc
  obtain ⟨l, hl, hcl⟩ := hc
  rw [List.mem_map] at hl
  obtain ⟨d, hd, rfl⟩ := hl
  exact byteHex_upper (h d hd) c hcl

set_option maxRecDepth 100000 in
/-- C3 (counterexample). The claim says `fingerprint()` renders the digest
as lowercase hexadecimal; on a concrete freshly constructed backend the
rendered fingerprint contains uppercase letters, so its characters are not
all lowercase hexadecimal digits. -/
theorem fingerprint_not_lowercase :
    ¬ (b0.fingerprint.data.all isLowerHexDigit = true) := by decide

/-- C3 (amended). **Fingerprint: SHA-1 over the cache, 40 uppercase hex
characters.** For every backend state, `fingerprint()` returns exactly the
SHA-1 digest of the current packet-cache bytes rendered as a string of 40
*uppercase* hexadecimal characters (sequoia's `Fingerprint::to_hex` is the
`{:X}` formatter), and it is a pure function of the backend state —
it takes the backend immutably and returns only the string. -/
theorem fingerprint_sha1_uppercase_hex (b : SequoiaBackend) :
    b.fingerprint = Fingerprint.to_hex (sha1 b.packet_cache)
  ∧ b.fingerprint.length = 40
  ∧ b.fingerprint.data.all isUpperHexDigit = true := by
  refine ⟨rfl, ?_, ?_⟩
  · show ((sha1 b.packet_cache).map byteHex).flatten.length = 40
    rw [toHex_length, sha1_length]
  · show ((sha1 b.packet_cache).map byteHex).flatten.all isUpperHexDigit = true
    exact toHex_all_upper (sha1_mem_lt _)

/-! ## Finalization -/

/-- The identity-related packets of a finalized certificate: the literal
identity string and its certification signature when a user id is present,
nothing otherwise. -/
def uidPackets (uid : UserID) (ct : Nat) : List Packet :=
  match uid.get_id with
  | some s =>
    [Packet.UserID s,
     Packet.Signature (uid_signature (direct_key_signature ct) ct)]
  | none => []

/-- A successful assembly determines the certificate completely: the
stamped secret primary key, the direct-key signature, the identity packets
(if any), the stamped secret subkey and its binding signature, in order. -/
theorem assemble_eq_ok {b : SequoiaBackend} {uid : UserID} {env : FinalizeEnv}
    {cert : Cert} (h : assemble b uid env = Except.ok cert) :
    ∃ sk, env.subkey_outcome = some sk ∧
      cert.packets =
        Packet.SecretKey (b.primary_key.set_creation_time b.timestamp) ::
        Packet.Signature (direct_key_signature b.timestamp) ::
        (uidPackets uid b.timestamp ++
         [Packet.SecretSubkey (sk.set_creation_time b.timestamp),
          Packet.Signature (subkey_binding_signature b.timestamp)]) := by
  cases hkp : env.keypair_ok <;>
    cases hsd : env.sign_direct_ok <;>
    cases hub : env.uid_bind_ok <;>
    cases hsb : env.subkey_bind_ok <;>
    cases hsk : env.subkey_outcome <;>
    cases hu : uid.get_id <;>
    simp only [assemble, generate_key, Cert.from_packets, Cert.merge_packets,
      CipherSuite.get_encryption_key_algorithm, uidPackets, hkp, hsd, hub, hsb,
      hsk, hu, Bool.false_eq_true, if_false, if_true, reduceCtorEq] at h ⊢ <;>
    (cases h; exact ⟨_, rfl, by simp⟩)

/-- The assembly never inserts an unrecognized packet. -/
theorem assemble_no_unknowns {b : SequoiaBackend} {uid : UserID}
    {env : FinalizeEnv} {cert : Cert} (h : assemble b uid env = Except.ok cert) :
    cert.unknowns = [] := by
  obtain ⟨sk, _, hp⟩ := assemble_eq_ok h
  unfold Cert.unknowns
  rw [hp]
  cases hu : uid.get_id <;> simp [uidPackets, hu, Packet.isUnknown]

/-- With no unknown packets, validation never reports
`InvalidKeyGenerated`. -/
theorem validate_not_ikg {env : FinalizeEnv} {cert : Cert}
    (hemp : cert.unknowns = []) :
    validateAndArmor env cert
      ≠ Except.error (UniversalError.pgp PGPError.InvalidKeyGenerated) := by
  cases hps : env.public_serialized with
  | none => simp [validateAndArmor, hemp, hps]
  | some pb =>
    cases hdec : utf8Decode pb with
    | none => simp [validateAndArmor, hemp, hps, hdec]
    | some pc =>
      cases hpr : env.private_serialized with
      | none => simp [validateAndArmor, hemp, hps, hdec, hpr]
      | some ph =>
        cases hw : env.writer_output with
        | none => simp [validateAndArmor, hemp, hps, hdec, hpr, hw]
        | some out => simp [validateAndArmor, hemp, hps, hdec, hpr, hw]

/-- C6. **Assembly validation.** The certificate assembled by finalize is
validated for unrecognized packets: the validation step fails with
`InvalidKeyGenerated` exactly when at least one unknown packet remains —
and then no armored pair is produced — and a finalize call whose assembly
produced `cert` reports `InvalidKeyGenerated` exactly under the same
condition. -/
theorem finalize_validation_iff (env : FinalizeEnv) (cert : Cert) :
    (validateAndArmor env cert
        = Except.error (UniversalError.pgp PGPError.InvalidKeyGenerated)
      ↔ cert.unknowns ≠ [])
  ∧ (∀ (b : SequoiaBackend) (uid : UserID),
      assemble b uid env = Except.ok cert →
      (b.get_armored_results uid env
          = Except.error (UniversalError.pgp PGPError.InvalidKeyGenerated)
        ↔ cert.unknowns ≠ []))
  ∧ (cert.unknowns ≠ [] →
      ∀ ak, validateAndArmor env cert ≠ Except.ok ak) := by
  have hmain : validateAndArmor env cert
      = Except.error (UniversalError.pgp PGPError.InvalidKeyGenerated)
      ↔ cert.unknowns ≠ [] := by
    constructor
    · intro hres hemp
      exact validate_not_ikg hemp hres
    · intro hne
      unfold validateAndArmor
      rw [if_neg hne]
  refine ⟨hmain, ?_, ?_⟩
  · intro b uid hass
    unfold SequoiaBackend.get_armored_results
    rw [hass]
    exact hmain
  · intro hne ak
    unfold validateAndArmor
    rw [if_neg hne]
    simp

/-- A certificate still carrying an unrecognized packet. -/
def certBad : Cert := ⟨[Packet.Unknown]⟩

/-- Witness for C6: validation of a certificate with an unknown packet. -/
theorem finalize_validation_iff_witness :
    validateAndArmor envOk certBad
      = Except.error (UniversalError.pgp PGPError.InvalidKeyGenerated) :=
  (finalize_validation_iff envOk certBad).1.mpr (by decide)

theorem direct_key_signature_typ (t : Nat) :
    (direct_key_signature t).typ = SignatureType.DirectKey := rfl

theorem subkey_binding_signature_typ (t : Nat) :
    (subkey_binding_signature t).typ = SignatureType.SubkeyBinding := rfl

/-- C7. **No-identity path.** A finalize whose user id is absent assembles
a certificate with no identity packet and no identity-certification
signature, consisting in order of the secret primary key, exactly one
direct-key signature, the secret subkey and exactly one subkey-binding
signature. -/
theorem no_identity_certificate (b : SequoiaBackend) (uid : UserID)
    (env : FinalizeEnv) (cert : Cert) (hu : uid.get_id = none)
    (h : assemble b uid env = Except.ok cert) :
    (∃ sk : Key4, cert.packets =
      [Packet.SecretKey (b.primary_key.set_creation_time b.timestamp),
       Packet.Signature (direct_key_signature b.timestamp),
       Packet.SecretSubkey (sk.set_creation_time b.timestamp),
       Packet.Signature (subkey_binding_signature b.timestamp)])
  ∧ (direct_key_signature b.timestamp).typ = SignatureType.DirectKey
  ∧ (subkey_binding_signature b.timestamp).typ = SignatureType.SubkeyBinding
  ∧ cert.packets.filter Packet.isUserID = []
  ∧ (∀ s, Packet.Signature s ∈ cert.packets →
      s.typ ≠ SignatureType.PositiveCertification) := by
  obtain ⟨sk, hsk, hp⟩ := assemble_eq_ok h
  refine ⟨⟨sk, by rw [hp]; simp [uidPackets, hu]⟩, rfl, rfl, ?_, ?_⟩
  · rw [hp]
    simp [uidPackets, hu, Packet.isUserID]
  · intro s hs
    rw [hp] at hs
    simp only [uidPackets, hu, List.nil_append, List.mem_cons,
      List.not_mem_nil, or_false, reduceCtorEq, false_or,
      Packet.Signature.injEq] at hs
    rcases hs with rfl | rfl
    · rw [direct_key_signature_typ]; simp
    · rw [subkey_binding_signature_typ]; simp

/-- Witness for C7: the two self-signatures of a concretely finalized
no-identity certificate have the stated types. -/
theorem no_identity_certificate_witness :
    (direct_key_signature b0.timestamp).typ = SignatureType.DirectKey
  ∧ (subkey_binding_signature b0.timestamp).typ = SignatureType.SubkeyBinding :=
  ⟨(no_identity_certificate b0 uidNone envOk _ rfl rfl).2.1,
   (no_identity_certificate b0 uidNone envOk _ rfl rfl).2.2.1⟩

/-- C8. **Direct-key signature attributes.** For every successful
assembly, the direct-key signature is built with exactly: type
`DirectKey`, hash SHA-512, features declared, key flags {certification,
signing}, no validity period, preferred hash algorithms [SHA-512,
SHA-256], preferred symmetric algorithms [AES-256, AES-128] — and it is
the second packet of the certificate. -/
theorem direct_signature_attributes (b : SequoiaBackend) (uid : UserID)
    (env : FinalizeEnv) (cert : Cert)
    (h : assemble b uid env = Except.ok cert) :
    direct_key_signature b.timestamp
      = { typ := SignatureType.DirectKey
          hash_algo := some HashAlgorithm.SHA512
          features_declared := true
          key_flags := some ⟨true, true, false⟩
          signature_creation_time := some b.timestamp
          key_validity_period := none
          preferred_hash_algorithms :=
            some [HashAlgorithm.SHA512, HashAlgorithm.SHA256]
          preferred_symmetric_algorithms :=
            some [SymmetricAlgorithm.AES256, SymmetricAlgorithm.AES128]
          revocation_keys := [] }
  ∧ cert.packets[1]?
      = some (Packet.Signature (direct_key_signature b.timestamp)) := by
  obtain ⟨sk, hsk, hp⟩ := assemble_eq_ok h
  refine ⟨rfl, ?_⟩
  rw [hp]
  simp

/-- Witness for C8 at a concrete finalize call. -/
theorem direct_signature_attributes_witness :
    direct_key_signature b0.timestamp
      = { typ := SignatureType.DirectKey
          hash_algo := some HashAlgorithm.SHA512
          features_declared := true
          key_flags := some ⟨true, true, false⟩
          signature_creation_time := some b0.timestamp
          key_validity_period := none
          preferred_hash_algorithms :=
            some [HashAlgorithm.SHA512, HashAlgorithm.SHA256]
          preferred_symmetric_algorithms :=
            some [SymmetricAlgorithm.AES256, SymmetricAlgorithm.AES128]
          revocation_keys := [] } :=
  (direct_signature_attributes b0 uidAlice envOk _ rfl).1

theorem direct_key_signature_ct (t : Nat) :
    (direct_key_signature t).signature_creation_time = some t := rfl

theorem uid_signature_ct (ds : Signature) (t : Nat) :
    (uid_signature ds t).signature_creation_time = some t := rfl

theorem subkey_binding_signature_ct (t : Nat) :
    (subkey_binding_signature t).signature_creation_time = some t := rfl

/-- C10. **One timestamp everywhere.** For every successful assembly, the
timestamp committed into the primary key's creation time is used
uniformly: every signature of the certificate (direct-key, identity
certification when present, subkey binding) carries it as its
signature-creation time, and both secret keys of the certificate carry it
as their creation time. -/
theorem uniform_creation_time (b : SequoiaBackend) (uid : UserID)
    (env : FinalizeEnv) (cert : Cert)
    (h : assemble b uid env = Except.ok cert) :
    (∀ s, Packet.Signature s ∈ cert.packets →
        s.signature_creation_time = some b.timestamp)
  ∧ (∀ k, Packet.SecretKey k ∈ cert.packets → k.creation_time = b.timestamp)
  ∧ (∀ k, Packet.SecretSubkey k ∈ cert.packets →
        k.creation_time = b.timestamp) := by
  obtain ⟨sk, hsk, hp⟩ := assemble_eq_ok h
  refine ⟨?_, ?_, ?_⟩ <;> intro x hx <;> rw [hp] at hx <;>
    cases hu : uid.get_id <;>
    simp only [uidPackets, hu, List.nil_append, List.cons_append,
      List.mem_cons, List.not_mem_nil, or_false, reduceCtorEq, false_or,
      or_false, Packet.Signature.injEq, Packet.SecretKey.injEq,
      Packet.SecretSubkey.injEq] at hx
  · rcases hx with rfl | rfl
    · exact direct_key_signature_ct _
    · exact subkey_binding_signature_ct _
  · rcases hx with rfl | rfl | rfl
    · exact direct_key_signature_ct _
    · exact uid_signature_ct _ _
    · exact subkey_binding_signature_ct _
  · rw [hx]; rfl
  · rw [hx]; rfl
  · rw [hx]; rfl
  · rw [hx]; rfl

/-- Witness for C10: the identity-certification signature of a concrete
finalize call with a user id carries the backend's timestamp. -/
theorem uniform_creation_time_witness :
    (uid_signature (direct_key_signature b0.timestamp)
        b0.timestamp).signature_creation_time = some b0.timestamp :=
  (uniform_creation_time b0 uidAlice envOk _ rfl).1 _ (by decide)

/-- An environment whose serialized private armor bytes are not valid
UTF-8. -/
def envBadPriv : FinalizeEnv := { envOk with writer_output := some [0xFF] }

/-- An environment whose serialized public armor bytes are not valid
UTF-8. -/
def envBadPub : FinalizeEnv := { envOk with public_serialized := some [0xFF] }

/-- C9 (counterexample). The claim says invalid UTF-8 in *either* armored
block makes finalize fail with no result pair; but the private block is
converted with `String::from_utf8_lossy`: with ill-formed private armor
bytes (`0xFF` fails strict decoding) finalize still returns an `Ok` pair,
with the invalid byte *substituted* by U+FFFD. -/
theorem utf8_lossy_private_counterexample :
    utf8Decode [0xFF] = none
  ∧ envBadPriv.writer_output = some [0xFF]
  ∧ SequoiaBackend.get_armored_results b0 uidNone envBadPriv
      = Except.ok (ArmoredKey.new
          (String.mk [Char.ofNat 0x41, Char.ofNat 0x42])
          (String.mk [replacementChar])) :=
  ⟨rfl, rfl, rfl⟩

/-- C9 (amended). **Strict public conversion, lossy private conversion.**
Whenever the serialized *public* armored block is not valid UTF-8,
finalize fails with the conversion error and returns no result pair; the
*private* armored block is converted lossily (ill-formed sequences
replaced by U+FFFD) and never makes finalize fail. -/
theorem utf8_strict_public_lossy_private (b : SequoiaBackend) (uid : UserID)
    (env : FinalizeEnv) (cert : Cert)
    (h : assemble b uid env = Except.ok cert) :
    (∀ pb, env.public_serialized = some pb → utf8Decode pb = none →
        b.get_armored_results uid env = Except.error UniversalError.utf8)
  ∧ (∀ pb pc ph out, env.public_serialized = some pb →
        utf8Decode pb = some pc → env.private_serialized = some ph →
        env.writer_output = some out →
        b.get_armored_results uid env
          = Except.ok (ArmoredKey.new (String.mk pc)
              (String.mk (utf8Lossy out)))) := by
  have hemp := assemble_no_unknowns h
  unfold SequoiaBackend.get_armored_results
  rw [h]
  constructor
  · intro pb hpb hdec
    simp [validateAndArmor, hemp, hpb, hdec]
  · intro pb pc ph out hpb hdec hph hout
    simp [validateAndArmor, hemp, hpb, hdec, hph, hout, ArmoredKey.new]

/-- Witness for C9 (amended): a concrete finalize call whose public block
bytes are ill-formed fails with the conversion error. -/
theorem utf8_strict_public_lossy_private_witness :
    SequoiaBackend.get_armored_results b0 uidNone envBadPub
      = Except.error UniversalError.utf8 :=
  (utf8_strict_public_lossy_private b0 uidNone envBadPub _ rfl).1 [0xFF] rfl rfl

end VanityGPG

